import Mathlib

/-!
Shallow embedding of the Muuto Made-to-Order master-data tool
(`muuto-m2o-app.py`): key normalization, price-column filtering,
required-column checking at load time, the selection store and its
mutation handlers, the resolver with its de-duplication pass, and the
currency/family selection steps.  Definitions mirror the Python source;
theorems settle the frozen claims about it.
-/

set_option maxRecDepth 4096

namespace Muuto

/-- The sentinel option shown when nothing is selected
(`DEFAULT_NO_SELECTION` in the source). -/
def DEFAULT_NO_SELECTION : String := "--- Please Select ---"

/-- `safe_str` from the source, on an optional string: `pd.isna` values
become the empty string, others are kept.  (`none` models a missing /
NaN cell.) -/
def safe_str (x : Option String) : String := x.getD ""

/-- Character image of the first two replaces of `normalize_key`:
spaces and slashes become underscores. -/
def normChar (c : Char) : Char := if c = ' ' ∨ c = '/' then '_' else c

/-- Python `replace("__", "_")` at character level: one non-overlapping
left-to-right pass collapsing each pair of underscores into one. -/
def collapseDoubleUnderscore : List Char → List Char
  | '_' :: '_' :: rest => '_' :: collapseDoubleUnderscore rest
  | c :: rest => c :: collapseDoubleUnderscore rest
  | [] => []

/-- `normalize_key` from the source: replace spaces and slashes by
underscores, strip parentheses, then collapse double underscores
(one left-to-right pass, as Python `str.replace` does).  Rendered at
character level so it computes by kernel reduction. -/
def normalize_key (s : String) : String :=
  ⟨collapseDoubleUnderscore
    (((s.data.map normChar).filter (fun c => ¬ (c = '(' ∨ c = ')'))))⟩

/-- The generic-item key built in `handle_matrix_cb_toggle`:
`normalize_key(f"{family}_{prod}_{uph_type}_{uph_color}")`. -/
def makeGenericKey (family prod uphType uphColor : String) : String :=
  normalize_key (family ++ "_" ++ prod ++ "_" ++ uphType ++ "_" ++ uphColor)

/-- Whitespace as stripped by Python `str.strip()` (the characters that
occur in column names). -/
def isSpaceChar (c : Char) : Bool := c = ' ' ∨ c = '\t' ∨ c = '\n' ∨ c = '\r'

/-- Python `str.strip()` at character level. -/
def trimChars (l : List Char) : List Char :=
  ((l.dropWhile isSpaceChar).reverse.dropWhile isSpaceChar).reverse

/-- Python `str.startswith` at character level. -/
def startsWithList : List Char → List Char → Bool
  | _, [] => true
  | [], _ :: _ => false
  | a :: as, b :: bs => a = b && startsWithList as bs

/-- Python `str.strip().lower()` at character level. -/
def stripLower (c : String) : List Char := (trimChars c.data).map Char.toLower

/-- The price-column test inside `remove_price_columns`: the stripped,
lower-cased name starts with "wholesale price" or "retail price". -/
def isPriceCol (c : String) : Bool :=
  startsWithList (stripLower c) "wholesale price".data
    || startsWithList (stripLower c) "retail price".data

/-- `remove_price_columns` from the source: keep, in order, the columns
that are not price columns. -/
def remove_price_columns : List String → List String
  | [] => []
  | c :: rest => if isPriceCol c then remove_price_columns rest
                 else c :: remove_price_columns rest

/-- The template-column computation of the load block: the template's
columns minus price columns; when that is empty, fall back to the raw
table's columns minus price columns (lines 219-234 of the source). -/
def compute_template_cols (templateCols rawCols : List String) : List String :=
  let t := remove_price_columns templateCols
  if t.isEmpty then remove_price_columns rawCols else t

/-- The required column names from `get_required_columns_warning`. -/
def required_needed : List String :=
  ["Product Family", "Upholstery Type", "Upholstery Color", "Item No", "Article No"]

/-- The `missing` list computed by `get_required_columns_warning`. -/
def required_columns_missing (cols : List String) : List String :=
  required_needed.filter (fun c => ¬ c ∈ cols)

/-- Outcome of the load block: whether `files_loaded_successfully` is
still true afterwards, and which required columns the warning named. -/
structure LoadOutcome where
  files_loaded_successfully : Bool
  warned_missing : List String
  deriving Repr, DecidableEq

/-- The load block (lines 212-238): failure only when the raw file is
absent or reading raises; a successful read merely warns about missing
required columns and keeps going.  `st.stop()` later makes the
selection flow reachable exactly when `files_loaded_successfully`. -/
def load_data (raw_exists read_ok : Bool) (cols : List String) : LoadOutcome :=
  if ¬ raw_exists then ⟨false, []⟩
  else if ¬ read_ok then ⟨false, []⟩
  else ⟨true, required_columns_missing cols⟩

/-- One row of the (currency-filtered) raw catalog table.  `base`,
`itemNo`, `articleNo` are `none` when the cell is NaN. -/
structure Row where
  currency : String
  family : String
  product : String
  uphType : String
  uphColor : String
  base : Option String
  itemNo : Option String
  articleNo : Option String
  deriving Repr, DecidableEq

/-- `astype(str)` on the base-color column: NaN prints as "nan". -/
def baseAsStr (r : Row) : String := r.base.getD "nan"

/-- The dictionary value stored in `matrix_selected_generic_items`. -/
structure ItemData where
  key : String
  family : String
  product : String
  uphType : String
  uphColor : String
  requiresBaseChoice : Bool
  availableBases : List String
  resolvedBaseIfSingle : Option String
  itemNoIfSingleBase : Option String
  articleNoIfSingleBase : Option String
  deriving Repr, DecidableEq

/-- One entry of `final_items_for_download`; `chosen_base = none` models
a dict without the "chosen_base" key. -/
structure FinalItem where
  description : String
  item_no : Option String
  article_no : Option String
  key_in_matrix : String
  chosen_base : Option String
  deriving Repr, DecidableEq

/-- Association-list lookup (Python `dict.get`). -/
def lookupA {α : Type} : List (String × α) → String → Option α
  | [], _ => none
  | (k, v) :: rest, key => if k = key then some v else lookupA rest key

/-- Python `dict[key] = value`: overwrite in place when the key exists
(keeping its insertion position), append otherwise. -/
def upsert {α : Type} : List (String × α) → String → α → List (String × α)
  | [], key, v => [(key, v)]
  | (k, w) :: rest, key, v =>
    if k = key then (key, v) :: rest else (k, w) :: upsert rest key v

/-- Python `del dict[key]` / `dict.pop(key, None)`. -/
def eraseA {α : Type} (m : List (String × α)) (key : String) : List (String × α) :=
  m.filter (fun p => ¬ p.1 = key)

/-- pandas `unique()`: distinct values keeping first occurrences. -/
def uniqueFirstAux : List String → List String → List String
  | [], _ => []
  | x :: xs, seen => if x ∈ seen then uniqueFirstAux xs seen
                     else x :: uniqueFirstAux xs (x :: seen)

/-- pandas `unique()` on a column, first-occurrence order. -/
def uniqueFirst (l : List String) : List String := uniqueFirstAux l []

/-- The app's mutable session state (the fields the claims touch). -/
structure AppState where
  selected_currency : Option String
  selected_family : String
  filtered_df : List Row
  generic : List (String × ItemData)
  chosenBases : List (String × List String)
  finalItems : List FinalItem
  deriving Repr, DecidableEq

/-- The row filter of `handle_matrix_cb_toggle`: product display name,
upholstery type and upholstery color all match exactly. -/
def match_rows (df : List Row) (prod uphType uphColor : String) : List Row :=
  df.filter (fun r => r.product = prod ∧ r.uphType = uphType ∧ r.uphColor = uphColor)

/-- The distinct non-NaN base colors among a set of matching rows
(`item_exists_df[base_col].dropna().astype(str).unique()`). -/
def distinctBases (ms : List Row) : List String :=
  uniqueFirst (ms.filterMap (fun r => r.base))

/-- The `item_data` dict built by `handle_matrix_cb_toggle` when the
cell is checked and `first` is the first matching row. -/
def buildItemData (family prod uphType uphColor key : String)
    (ms : List Row) (first : Row) : ItemData :=
  let bases := distinctBases ms
  { key := key, family := family, product := prod,
    uphType := uphType, uphColor := uphColor,
    requiresBaseChoice := decide (bases.length > 1),
    availableBases := bases,
    resolvedBaseIfSingle := match bases with | [b] => some b | _ => none,
    itemNoIfSingleBase := first.itemNo,
    articleNoIfSingleBase := first.articleNo }

/-- `handle_matrix_cb_toggle`: check ⇒ build and store the generic
selection (no-op with a toast when no row matches); uncheck ⇒ delete
the selection and its chosen-bases entry. -/
def handle_matrix_cb_toggle (st : AppState) (prod uphType uphColor : String)
    (is_checked : Bool) : AppState :=
  let key := makeGenericKey st.selected_family prod uphType uphColor
  if is_checked then
    match match_rows st.filtered_df prod uphType uphColor with
    | [] => st
    | first :: _ =>
      let item := buildItemData st.selected_family prod uphType uphColor key
        (match_rows st.filtered_df prod uphType uphColor) first
      { st with generic := upsert st.generic key item }
  else
    { st with generic := eraseA st.generic key,
              chosenBases := eraseA st.chosenBases key }

/-- `handle_base_color_multiselect_change`: store the multiselect's
current value (possibly the empty list) for the item. -/
def handle_base_color_multiselect_change (st : AppState) (item_key : String)
    (chosen : List String) : AppState :=
  { st with chosenBases := upsert st.chosenBases item_key chosen }

/-- One iteration of `handle_family_base_color_select_all_toggle`'s loop. -/
def famBaseStep (base_color : String) (is_checked : Bool)
    (cb : List (String × List String)) (item : ItemData) :
    List (String × List String) :=
  if ¬ base_color ∈ item.availableBases then cb
  else
    let current := (lookupA cb item.key).getD []
    if is_checked then
      if ¬ base_color ∈ current then
        upsert cb item.key (current ++ [base_color])
      else cb
    else
      if base_color ∈ current then
        upsert cb item.key (current.filter (fun b => ¬ b = base_color))
      else cb

/-- `handle_family_base_color_select_all_toggle`: add or remove one base
color to/from every applicable item's chosen-bases list.  The generic
selections are untouched and no chosen-bases entry is deleted, even
when a list becomes empty. -/
def handle_family_base_color_select_all_toggle (st : AppState)
    (base_color : String) (items : List ItemData) (is_checked : Bool) : AppState :=
  { st with chosenBases := items.foldl (famBaseStep base_color is_checked) st.chosenBases }

/-- Rendering Step 2 resets an out-of-range family to the sentinel
(lines 321-322), then stores the selectbox's value (line 330). -/
def family_step (st : AppState) (available_families : List String)
    (choice : String) : AppState :=
  let st1 := if st.selected_family ∈ available_families then st
             else { st with selected_family := DEFAULT_NO_SELECTION }
  { st1 with selected_family := choice }

/-- The currency step (lines 273-291): set/clear the selected currency
and the filtered frame, then — only when a previously selected currency
changed — clear the selections, chosen bases, final items and the
selected family. -/
def process_currency_selection (st : AppState) (raw_df : List Row)
    (choice : String) : AppState :=
  let prev := st.selected_currency
  let st1 :=
    if choice = DEFAULT_NO_SELECTION then
      { st with selected_currency := none, filtered_df := [] }
    else
      { st with selected_currency := some choice,
                filtered_df := raw_df.filter (fun r => r.currency = choice) }
  if prev.isSome ∧ prev ≠ st1.selected_currency then
    { st1 with generic := [], chosenBases := [], finalItems := [],
               selected_family := DEFAULT_NO_SELECTION }
  else st1

/-- The description string of a resolved single/no-base item (Step 3). -/
def descDirect (item : ItemData) : String :=
  item.family ++ " / " ++ item.product ++ " / " ++ item.uphType ++ " / " ++ item.uphColor
    ++ (match item.resolvedBaseIfSingle with
        | some b => " / Base: " ++ b
        | none => "")

/-- The description string of a resolved multi-base item for base `bc`. -/
def descWithBase (item : ItemData) (bc : String) : String :=
  item.family ++ " / " ++ item.product ++ " / " ++ item.uphType ++ " / " ++ item.uphColor
    ++ " / Base: " ++ bc

/-- The row mask of the multi-base resolution branch (lines 700-712):
family, product, upholstery type/color and the stringified base color
all match. -/
def specific_rows (df : List Row) (item : ItemData) (bc : String) : List Row :=
  df.filter (fun r =>
    r.family = item.family ∧ r.product = item.product ∧
    r.uphType = item.uphType ∧ r.uphColor = item.uphColor ∧ baseAsStr r = bc)

/-- The final-item dict appended for one chosen base `bc` whose first
matching row is `row`. -/
def mkBaseFinalItem (key : String) (item : ItemData) (bc : String) (row : Row) :
    FinalItem :=
  { description := descWithBase item bc, item_no := row.itemNo,
    article_no := row.articleNo, key_in_matrix := key, chosen_base := some bc }

/-- The emission loop body for one generic selection (lines 686-724):
a direct item when no base choice is required, otherwise one item per
chosen base whose mask matches at least one row (non-matching bases are
skipped silently). -/
def resolve_one (df : List Row) (key : String) (item : ItemData)
    (chosen : List String) : List FinalItem :=
  if ¬ item.requiresBaseChoice then
    [{ description := descDirect item, item_no := item.itemNoIfSingleBase,
       article_no := item.articleNoIfSingleBase, key_in_matrix := key,
       chosen_base := none }]
  else
    chosen.flatMap (fun bc =>
      match specific_rows df item bc with
      | [] => []
      | row :: _ => [mkBaseFinalItem key item bc row])

/-- `_current_final_items` (lines 682-724): empty when the filtered
frame is empty, otherwise the concatenation over all generic
selections in insertion order. -/
def current_final_items (st : AppState) : List FinalItem :=
  if st.filtered_df.isEmpty then []
  else st.generic.flatMap (fun p =>
    resolve_one st.filtered_df p.1 p.2 ((lookupA st.chosenBases p.1).getD []))

/-- The de-duplication key of the review loop:
`f"{safe_str(item_no)}_{safe_str(chosen_base or NO_BASE)}"`. -/
def ukey (it : FinalItem) : String :=
  safe_str it.item_no ++ "_" ++ it.chosen_base.getD "NO_BASE"

/-- Eligibility test of the review loop: the item number, stripped,
is non-empty (Python truthiness of `safe_str(...).strip()`). -/
def keepable (it : FinalItem) : Bool :=
  ¬ trimChars (safe_str it.item_no).data = []

/-- The review de-duplication loop (lines 727-732), with `seen` the set
of keys already kept: an item is appended, and its key recorded, only
when its key is new and it is keepable. -/
def dedup_go : List FinalItem → List String → List FinalItem
  | [], _ => []
  | it :: rest, seen =>
    if ¬ ukey it ∈ seen ∧ keepable it then
      it :: dedup_go rest (ukey it :: seen)
    else dedup_go rest seen

/-- `temp_final_list_review`: the loop started with an empty `seen`. -/
def dedup_final (items : List FinalItem) : List FinalItem := dedup_go items []

/-- Step 3 as a state transition: recompute and store
`final_items_for_download`. -/
def step3 (st : AppState) : AppState :=
  { st with finalItems := dedup_final (current_final_items st) }

/-! Concrete test fixtures (a small catalog and states), used to
instantiate the general theorems. -/

/-- A catalog row for product P with base color Oak. -/
def rowOak : Row :=
  { currency := "EUR", family := "Fam", product := "P", uphType := "T",
    uphColor := "C", base := some "Oak", itemNo := some "I-OAK",
    articleNo := some "A-OAK" }

/-- A catalog row for product P with base color Walnut. -/
def rowWalnut : Row :=
  { currency := "EUR", family := "Fam", product := "P", uphType := "T",
    uphColor := "C", base := some "Walnut", itemNo := some "I-WAL",
    articleNo := some "A-WAL" }

/-- A catalog row for product Q with no base color. -/
def rowSingle : Row :=
  { currency := "EUR", family := "Fam2", product := "Q", uphType := "T2",
    uphColor := "C2", base := none, itemNo := some "I2", articleNo := some "A2" }

/-- A small currency-filtered catalog. -/
def dfW : List Row := [rowOak, rowWalnut, rowSingle]

/-- A state with currency selected, family `Fam` active, no selections. -/
def stW : AppState :=
  { selected_currency := some "EUR", selected_family := "Fam",
    filtered_df := dfW, generic := [], chosenBases := [], finalItems := [] }

/-- A stored generic selection for family `A`. -/
def itemA : ItemData :=
  { key := "A_P_T_C", family := "A", product := "P", uphType := "T",
    uphColor := "C", requiresBaseChoice := false, availableBases := [],
    resolvedBaseIfSingle := none, itemNoIfSingleBase := some "I1",
    articleNoIfSingleBase := some "A1" }

/-- A state whose selection set is non-empty for family `A`. -/
def stA : AppState :=
  { selected_currency := some "EUR", selected_family := "A",
    filtered_df := dfW, generic := [("A_P_T_C", itemA)], chosenBases := [],
    finalItems := [] }

/-- The family options offered alongside `A` and `B`. -/
def famsAB : List String := [DEFAULT_NO_SELECTION, "A", "B"]

/-- A multi-base generic selection (bases Oak and Walnut). -/
def itemB : ItemData :=
  { key := "kB", family := "Fam", product := "P", uphType := "T",
    uphColor := "C", requiresBaseChoice := true,
    availableBases := ["Oak", "Walnut"], resolvedBaseIfSingle := none,
    itemNoIfSingleBase := some "I-OAK", articleNoIfSingleBase := some "A-OAK" }

/-- A state where `itemB` is selected with chosen base Oak. -/
def stB : AppState :=
  { selected_currency := some "EUR", selected_family := "Fam",
    filtered_df := dfW, generic := [("kB", itemB)],
    chosenBases := [("kB", ["Oak"])], finalItems := [] }

/-- A raw-table column list lacking the required column `Item No`. -/
def colsMissingItemNo : List String :=
  ["Product Family", "Upholstery Type", "Upholstery Color", "Article No"]

/-! Helper lemmas about the association-list primitives. -/

theorem lookupA_upsert {α : Type} (m : List (String × α)) (key k : String) (v : α) :
    lookupA (upsert m key v) k = if k = key then some v else lookupA m k := by
  induction m with
  | nil =>
    simp only [upsert, lookupA]
    by_cases h : k = key
    · subst h; simp
    · rw [if_neg h, if_neg (fun hh => h hh.symm)]
  | cons p rest ih =>
    obtain ⟨k1, w⟩ := p
    simp only [upsert]
    by_cases h1 : k1 = key
    · subst h1
      rw [if_pos rfl]
      simp only [lookupA]
      by_cases h2 : k1 = k
      · subst h2; simp
      · have h3 : ¬ k = k1 := fun hh => h2 hh.symm
        simp [h2, h3]
    · rw [if_neg h1]
      simp only [lookupA, ih]
      by_cases h2 : k1 = k
      · have h3 : ¬ k = key := fun hh => h1 (h2.trans hh)
        simp [h2, h3]
      · simp [h2]

theorem upsert_idem {α : Type} (m : List (String × α)) (key : String) (v : α) :
    upsert (upsert m key v) key v = upsert m key v := by
  induction m with
  | nil => simp [upsert]
  | cons p rest ih =>
    obtain ⟨k1, w⟩ := p
    by_cases h1 : k1 = key
    · subst h1; simp [upsert]
    · simp [upsert, h1, ih]

theorem eraseA_idem {α : Type} (m : List (String × α)) (key : String) :
    eraseA (eraseA m key) key = eraseA m key := by
  induction m with
  | nil => rfl
  | cons p rest ih =>
    simp only [eraseA] at ih ⊢
    by_cases h : p.1 = key
    · simp [List.filter_cons, h, ih]
    · simp [List.filter_cons, h, ih]

theorem lookupA_upsert_isSome {α : Type} (m : List (String × α))
    (key k : String) (v : α) (h : (lookupA m k).isSome) :
    (lookupA (upsert m key v) k).isSome := by
  rw [lookupA_upsert]
  by_cases hk : k = key <;> simp [hk, h]

/-! Theorems settling the claims. -/

/-- Claim C1 counterexample: a state with a non-empty selection set for
family `A` keeps that selection set after the active family switches to
`B` — the GenericSelection set does not become empty, contradicting the
claim that a family change clears it. -/
theorem family_switch_does_not_clear_counterexample :
    (family_step stA famsAB "B").selected_family = "B" ∧
    (family_step stA famsAB "B").generic = [("A_P_T_C", itemA)] ∧
    ¬ (family_step stA famsAB "B").generic = [] := by
  refine ⟨by decide, by decide, by decide⟩

/-- Claim C1 (amended): switching the active family only records the new
family; the GenericSelections, the ChosenBases entries and the resolved
final-items list are all left exactly as they were — selections
accumulate across families and are only cleared by a currency change. -/
theorem family_switch_preserves_selections (st : AppState)
    (fams : List String) (choice : String) :
    (family_step st fams choice).selected_family = choice ∧
    (family_step st fams choice).generic = st.generic ∧
    (family_step st fams choice).chosenBases = st.chosenBases ∧
    (family_step st fams choice).finalItems = st.finalItems := by
  unfold family_step
  by_cases h : st.selected_family ∈ fams <;> simp [h]

/-- Claim C3 counterexample: with `Item No` absent from the raw table,
the load block still succeeds (`files_loaded_successfully = true`, so
selection operations stay reachable) while the warning names the
missing column — loading is not fatal, contradicting the claim. -/
theorem missing_column_not_fatal_counterexample :
    required_columns_missing colsMissingItemNo = ["Item No"] ∧
    load_data true true colsMissingItemNo = ⟨true, ["Item No"]⟩ := by
  refine ⟨by decide, by decide⟩

/-- Claim C3 (amended): loading fails only when the raw file is absent
or unreadable; when reading succeeds, missing required columns are
reported as a non-fatal warning listing exactly their names, and the
flow keeps going (`files_loaded_successfully` stays true, so the
selection steps remain reachable). -/
theorem missing_columns_warn_but_load_succeeds (raw read : Bool)
    (cols : List String) :
    (load_data raw read cols).files_loaded_successfully = (raw && read) ∧
    (load_data true true cols).warned_missing = required_columns_missing cols := by
  cases raw <;> cases read <;> simp [load_data]

/-- Claim C4: whenever a previously selected currency changes to any
different choice (another currency or back to the no-selection
sentinel), the store ends with no GenericSelections, no ChosenBases, an
empty final-items list, and the selected family reset to the sentinel. -/
theorem currency_change_clears_selections (st : AppState)
    (raw_df : List Row) (choice c : String)
    (hprev : st.selected_currency = some c)
    (hchange : (if choice = DEFAULT_NO_SELECTION then (none : Option String)
                else some choice) ≠ some c) :
    (process_currency_selection st raw_df choice).generic = [] ∧
    (process_currency_selection st raw_df choice).chosenBases = [] ∧
    (process_currency_selection st raw_df choice).finalItems = [] ∧
    (process_currency_selection st raw_df choice).selected_family
      = DEFAULT_NO_SELECTION := by
  unfold process_currency_selection
  by_cases hc : choice = DEFAULT_NO_SELECTION
  · simp [hc, hprev]
  · rw [if_neg hc] at hchange
    have hcc : ¬ c = choice := fun h => hchange (by rw [h])
    simp [hc, hprev, hcc]

/-- Witness for C4 at a concrete state: switching the currency from EUR
to DKK empties the generic-selection store. -/
theorem currency_change_clears_selections_witness :
    (process_currency_selection stB dfW "DKK").generic = [] :=
  (currency_change_clears_selections stB dfW "DKK" "EUR" rfl (by decide)).1

theorem famBaseStep_preserves_isSome (base : String) (checked : Bool)
    (cb : List (String × List String)) (item : ItemData) (k : String)
    (h : (lookupA cb k).isSome) :
    (lookupA (famBaseStep base checked cb item) k).isSome := by
  simp only [famBaseStep]
  split_ifs <;> first
  | exact h
  | exact lookupA_upsert_isSome _ _ _ _ h

theorem famFold_preserves_isSome (base : String) (checked : Bool)
    (items : List ItemData) (cb : List (String × List String)) (k : String)
    (h : (lookupA cb k).isSome) :
    (lookupA (items.foldl (famBaseStep base checked) cb) k).isSome := by
  induction items generalizing cb with
  | nil => exact h
  | cons it rest ih =>
    exact ih _ (famBaseStep_preserves_isSome base checked cb it k h)

/-- Claim C2 counterexample: removing base Oak through the family-level
bulk toggle empties `itemB`'s chosen-base set, yet the resulting state
keeps the ChosenBases entry (now mapping kB to the empty list) and
keeps the GenericSelection — nothing is pruned, contradicting the
claim. -/
theorem empty_chosen_bases_not_pruned_counterexample :
    (handle_family_base_color_select_all_toggle stB "Oak" [itemB] false).chosenBases
      = [("kB", ([] : List String))] ∧
    (handle_family_base_color_select_all_toggle stB "Oak" [itemB] false).generic
      = [("kB", itemB)] :=
  ⟨by decide, by decide⟩

/-- Claim C2 (amended): a base-color removal via the family-level bulk
toggle or via the per-item multiselect replacement never prunes: the
GenericSelection store is untouched, and no ChosenBases entry is
deleted — a set that becomes empty is stored as the empty list.
(Pruning of emptied selections happens only in the review-list Remove
handler.) -/
theorem base_removal_keeps_selection_and_entry (st : AppState)
    (base : String) (items : List ItemData) (checked : Bool)
    (k : String) (chosen : List String) :
    (handle_family_base_color_select_all_toggle st base items checked).generic
      = st.generic ∧
    (handle_base_color_multiselect_change st k chosen).generic = st.generic ∧
    (∀ k2, (lookupA st.chosenBases k2).isSome →
      (lookupA (handle_family_base_color_select_all_toggle st base items checked).chosenBases
        k2).isSome) ∧
    (∀ k2, (lookupA st.chosenBases k2).isSome →
      (lookupA (handle_base_color_multiselect_change st k chosen).chosenBases
        k2).isSome) := by
  refine ⟨rfl, rfl, ?_, ?_⟩
  · intro k2 h
    exact famFold_preserves_isSome base checked items st.chosenBases k2 h
  · intro k2 h
    exact lookupA_upsert_isSome _ _ _ _ h

/-- Witness for the amended C2 at the concrete state: after the bulk
removal that empties the set, kB still has a ChosenBases entry. -/
theorem base_removal_keeps_selection_and_entry_witness :
    (lookupA (handle_family_base_color_select_all_toggle stB "Oak" [itemB]
      false).chosenBases "kB").isSome :=
  (base_removal_keeps_selection_and_entry stB "Oak" [itemB] false "kB" []).2.2.1
    "kB" (by decide)

/-- Claim C6: `toggleCell` is idempotent — repeating the same toggle
(same cell, same checked flag) recomputes the same normalized key and
the same item data, so the second application leaves the session state
exactly as the first did, for both the checked and unchecked case. -/
theorem toggleCell_idempotent (st : AppState) (prod uphType uphColor : String)
    (checked : Bool) :
    handle_matrix_cb_toggle
      (handle_matrix_cb_toggle st prod uphType uphColor checked)
      prod uphType uphColor checked
      = handle_matrix_cb_toggle st prod uphType uphColor checked := by
  cases checked with
  | false => simp [handle_matrix_cb_toggle, eraseA_idem]
  | true =>
    cases h : match_rows st.filtered_df prod uphType uphColor with
    | nil => simp [handle_matrix_cb_toggle, h]
    | cons first rest => simp [handle_matrix_cb_toggle, h, upsert_idem]

theorem mem_remove_price_columns (cols : List String) (c : String)
    (h : c ∈ remove_price_columns cols) : isPriceCol c = false := by
  induction cols with
  | nil => cases h
  | cons d rest ih =>
    simp only [remove_price_columns] at h
    by_cases hd : isPriceCol d = true
    · rw [if_pos hd] at h; exact ih h
    · rw [if_neg hd] at h
      rcases List.mem_cons.mp h with h1 | h1
      · subst h1; exact Bool.eq_false_iff.mpr hd
      · exact ih h1

/-- Claim C7: the export's column list is exactly the template columns
with every column whose stripped lower-cased name starts with
"wholesale price" or "retail price" removed, and the exclusion also
covers the catalog-column fallback taken when the template list is
empty — so no computed output column list ever contains a price
column. -/
theorem export_excludes_price_columns (templateCols rawCols : List String) :
    remove_price_columns templateCols
      = templateCols.filter (fun c => !(isPriceCol c)) ∧
    (∀ c ∈ compute_template_cols templateCols rawCols, isPriceCol c = false) := by
  constructor
  · induction templateCols with
    | nil => rfl
    | cons d rest ih =>
      by_cases hd : isPriceCol d = true <;>
        simp [remove_price_columns, List.filter_cons, hd, ih]
  · intro c hc
    simp only [compute_template_cols] at hc
    by_cases he : (remove_price_columns templateCols).isEmpty
    · rw [if_pos he] at hc; exact mem_remove_price_columns rawCols c hc
    · rw [if_neg he] at hc; exact mem_remove_price_columns templateCols c hc

/-- Witness for C7: with a template holding a wholesale-price column and
an ordinary column, the computed output columns keep "Item No", and the
theorem certifies it is not a price column. -/
theorem export_excludes_price_columns_witness : isPriceCol "Item No" = false :=
  (export_excludes_price_columns ["Wholesale Price (EUR)", "Item No"] []).2
    "Item No" (by decide)

/-- Claim C10 counterexample: two tuples whose family fields differ
("a b" versus "a_b") normalize to the same generic key — the key
normalization is not collision-free. -/
theorem normalize_key_collision_counterexample :
    makeGenericKey "a b" "p" "t" "c" = makeGenericKey "a_b" "p" "t" "c" ∧
    ("a b" : String) ≠ "a_b" :=
  ⟨rfl, by decide⟩

/-- Claim C10 (amended): the key normalization is deterministic — equal
input tuples always produce equal keys — but it is not collision-free:
distinct tuples differing in one field's content (for example by a
space versus an underscore) can produce the same key. -/
theorem normalize_key_deterministic_not_injective
    (f p t c f2 p2 t2 c2 : String)
    (hf : f = f2) (hp : p = p2) (ht : t = t2) (hc : c = c2) :
    makeGenericKey f p t c = makeGenericKey f2 p2 t2 c2 ∧
    ∃ g g2 : String, g ≠ g2 ∧
      makeGenericKey g "p" "t" "c" = makeGenericKey g2 "p" "t" "c" := by
  subst hf hp ht hc
  exact ⟨rfl, "a b", "a_b", by decide, rfl⟩

/-- Witness for the amended C10 at concrete fields. -/
theorem normalize_key_deterministic_not_injective_witness :
    makeGenericKey "x" "y" "z" "w" = makeGenericKey "x" "y" "z" "w" ∧
    ∃ g g2 : String, g ≠ g2 ∧
      makeGenericKey g "p" "t" "c" = makeGenericKey g2 "p" "t" "c" :=
  normalize_key_deterministic_not_injective "x" "y" "z" "w" "x" "y" "z" "w"
    rfl rfl rfl rfl

/-- Claim C8: checking a cell with at least one matching row stores a
GenericSelection whose `requiresBaseChoice` holds exactly when the
matching rows carry at least two distinct non-missing base colors; with
exactly one distinct base color, that base is recorded as the resolved
single base, and with none, no base is recorded. -/
theorem toggleCell_requires_base_choice_iff (st : AppState)
    (prod uphType uphColor : String) (first : Row) (rest : List Row)
    (h : match_rows st.filtered_df prod uphType uphColor = first :: rest) :
    ∃ item : ItemData,
      lookupA (handle_matrix_cb_toggle st prod uphType uphColor true).generic
        (makeGenericKey st.selected_family prod uphType uphColor) = some item ∧
      (item.requiresBaseChoice = true ↔
        2 ≤ (distinctBases (first :: rest)).length) ∧
      (∀ b, distinctBases (first :: rest) = [b] →
        item.resolvedBaseIfSingle = some b) ∧
      (distinctBases (first :: rest) = [] →
        item.resolvedBaseIfSingle = none) := by
  refine ⟨buildItemData st.selected_family prod uphType uphColor
    (makeGenericKey st.selected_family prod uphType uphColor)
    (first :: rest) first, ?_, ?_, ?_, ?_⟩
  · simp [handle_matrix_cb_toggle, h, lookupA_upsert]
  · simp only [buildItemData, decide_eq_true_eq]
    exact Iff.rfl
  · intro b hb
    simp [buildItemData, hb]
  · intro hb
    simp [buildItemData, hb]

/-- Witness for C8 at the concrete two-base catalog: checking (P, T, C)
stores a selection requiring a base choice. -/
theorem toggleCell_requires_base_choice_iff_witness :
    ∃ item : ItemData,
      lookupA (handle_matrix_cb_toggle stW "P" "T" "C" true).generic
        (makeGenericKey stW.selected_family "P" "T" "C") = some item ∧
      (item.requiresBaseChoice = true ↔
        2 ≤ (distinctBases [rowOak, rowWalnut]).length) ∧
      (∀ b, distinctBases [rowOak, rowWalnut] = [b] →
        item.resolvedBaseIfSingle = some b) ∧
      (distinctBases [rowOak, rowWalnut] = [] →
        item.resolvedBaseIfSingle = none) :=
  toggleCell_requires_base_choice_iff stW "P" "T" "C" rowOak [rowWalnut]
    (by decide)

/-- Claim C9: checking a cell with no matching catalog rows leaves the
session state completely unchanged (the handler only raises a transient
toast), and during resolution a chosen base color whose row mask
matches nothing is skipped silently — deleting it from the chosen list
does not change the emitted items, and the remaining bases still
resolve. -/
theorem toggle_not_found_noop_and_resolution_skips (st : AppState)
    (prod uphType uphColor : String)
    (hempty : match_rows st.filtered_df prod uphType uphColor = []) :
    handle_matrix_cb_toggle st prod uphType uphColor true = st ∧
    (∀ (df : List Row) (key : String) (item : ItemData)
       (l1 : List String) (bc : String) (l2 : List String),
       specific_rows df item bc = [] →
       resolve_one df key item (l1 ++ bc :: l2)
         = resolve_one df key item (l1 ++ l2)) := by
  constructor
  · simp [handle_matrix_cb_toggle, hempty]
  · intro df key item l1 bc l2 hspec
    by_cases hr : item.requiresBaseChoice = true
    · simp [resolve_one, hr, List.flatMap_append, hspec]
    · simp [resolve_one, hr]

/-- Witness for C9: toggling an unknown product is a no-op on the
concrete state. -/
theorem toggle_not_found_noop_witness :
    handle_matrix_cb_toggle stW "ZZZ" "T" "C" true = stW :=
  (toggle_not_found_noop_and_resolution_skips stW "ZZZ" "T" "C" (by decide)).1

theorem dedup_go_sublist (items : List FinalItem) (seen : List String) :
    (dedup_go items seen).Sublist items := by
  induction items generalizing seen with
  | nil => simp [dedup_go]
  | cons it rest ih =>
    simp only [dedup_go]
    split_ifs with hcond
    · exact List.Sublist.cons₂ it (ih (ukey it :: seen))
    · exact List.Sublist.cons it (ih seen)

theorem mem_dedup_go_keepable (items : List FinalItem) (seen : List String)
    (x : FinalItem) (hx : x ∈ dedup_go items seen) : keepable x = true := by
  induction items generalizing seen with
  | nil => cases hx
  | cons it rest ih =>
    simp only [dedup_go] at hx
    split_ifs at hx with hcond
    · rcases List.mem_cons.mp hx with h1 | h1
      · subst h1; exact hcond.2
      · exact ih _ h1
    · exact ih _ hx

theorem mem_dedup_go_not_seen (items : List FinalItem) (seen : List String)
    (x : FinalItem) (hx : x ∈ dedup_go items seen) : ¬ ukey x ∈ seen := by
  induction items generalizing seen with
  | nil => cases hx
  | cons it rest ih =>
    simp only [dedup_go] at hx
    split_ifs at hx with hcond
    · rcases List.mem_cons.mp hx with h1 | h1
      · subst h1; exact hcond.1
      · intro hmem
        exact ih _ h1 (List.mem_cons_of_mem _ hmem)
    · exact ih _ hx

theorem dedup_go_pairwise (items : List FinalItem) (seen : List String) :
    (dedup_go items seen).Pairwise (fun a b => ukey a ≠ ukey b) := by
  induction items generalizing seen with
  | nil => simp [dedup_go]
  | cons it rest ih =>
    simp only [dedup_go]
    split_ifs with hcond
    · refine List.Pairwise.cons ?_ (ih _)
      intro y hy heq
      exact mem_dedup_go_not_seen rest _ y hy
        (List.mem_cons.mpr (Or.inl heq.symm))
    · exact ih _

theorem dedup_go_first_seen (l1 : List FinalItem) (x : FinalItem)
    (l2 : List FinalItem) :
    ∀ (seen : List String), x ∈ dedup_go (l1 ++ x :: l2) seen → ¬ x ∈ l1 →
    ∀ y ∈ l1, ukey y = ukey x → keepable y = false := by
  induction l1 with
  | nil => intro seen hx hnotin y hy; cases hy
  | cons z l1t ih =>
    intro seen hx hnotin y hy heq
    have hxz : ¬ x = z := fun hh => hnotin (List.mem_cons.mpr (Or.inl hh))
    simp only [List.cons_append, dedup_go] at hx
    split_ifs at hx with hcond
    · rcases List.mem_cons.mp hx with h1 | h1
      · exact absurd h1 hxz
      · rcases List.mem_cons.mp hy with hy1 | hy1
        · subst hy1
          have hns := mem_dedup_go_not_seen _ _ x h1
          exact absurd (List.mem_cons.mpr (Or.inl heq.symm)) hns
        · exact ih _ h1 (fun hh => hnotin (List.mem_cons_of_mem _ hh)) y hy1 heq
    · rcases List.mem_cons.mp hy with hy1 | hy1
      · subst hy1
        by_cases hk : keepable y = true
        · have hin : ukey y ∈ seen := by
            by_contra hni
            exact hcond ⟨hni, hk⟩
          have hns := mem_dedup_go_not_seen _ _ x hx
          exact absurd (heq ▸ hin) hns
        · exact Bool.eq_false_iff.mpr hk
      · exact ih _ hx (fun hh => hnotin (List.mem_cons_of_mem _ hh)) y hy1 heq

theorem dedup_go_complete (items : List FinalItem) :
    ∀ (seen : List String) (x : FinalItem), x ∈ items → keepable x = true →
    ¬ ukey x ∈ seen → ∃ z ∈ dedup_go items seen, ukey z = ukey x := by
  induction items with
  | nil => intro seen x hx; cases hx
  | cons it rest ih =>
    intro seen x hx hk hns
    simp only [dedup_go]
    split_ifs with hcond
    · rcases List.mem_cons.mp hx with h1 | h1
      · subst h1
        exact ⟨x, List.mem_cons_self _ _, rfl⟩
      · by_cases he : ukey it = ukey x
        · exact ⟨it, List.mem_cons_self _ _, he⟩
        · obtain ⟨z, hz, hze⟩ := ih (ukey it :: seen) x h1 hk (by
            intro hmem
            rcases List.mem_cons.mp hmem with hh | hh
            · exact he hh.symm
            · exact hns hh)
          exact ⟨z, List.mem_cons_of_mem _ hz, hze⟩
    · rcases List.mem_cons.mp hx with h1 | h1
      · subst h1
        exact absurd ⟨hns, hk⟩ hcond
      · exact ih seen x h1 hk hns

/-- Claim C5: the final list computed by Step 3 is a subsequence of the
emitted items in emission order, contains only items with a non-blank
item number, holds at most one item per (item number, chosen
base-or-sentinel) pair, keeps the first-seen eligible occurrence of
each pair, and retains a representative of every eligible pair,
regardless of which selections emitted the duplicates. -/
theorem resolver_dedup_unique_first_seen (st : AppState) :
    ((step3 st).finalItems).Sublist (current_final_items st) ∧
    (∀ it ∈ (step3 st).finalItems,
      ¬ trimChars (safe_str it.item_no).data = []) ∧
    ((step3 st).finalItems).Pairwise (fun a b =>
      ¬ (safe_str a.item_no = safe_str b.item_no ∧
         a.chosen_base.getD "NO_BASE" = b.chosen_base.getD "NO_BASE")) ∧
    (∀ (l1 : List FinalItem) (x : FinalItem) (l2 : List FinalItem),
      current_final_items st = l1 ++ x :: l2 → ¬ x ∈ l1 →
      x ∈ (step3 st).finalItems →
      ∀ y ∈ l1, ukey y = ukey x → keepable y = false) ∧
    (∀ x ∈ current_final_items st, keepable x = true →
      ∃ z ∈ (step3 st).finalItems, ukey z = ukey x) := by
  refine ⟨?_, ?_, ?_, ?_, ?_⟩
  · exact dedup_go_sublist (current_final_items st) []
  · intro it hit
    have hk := mem_dedup_go_keepable (current_final_items st) [] it hit
    simpa [keepable] using hk
  · show (dedup_go (current_final_items st) []).Pairwise _
    refine (dedup_go_pairwise (current_final_items st) []).imp ?_
    intro a b hne hab
    exact hne (by simp [ukey, hab.1, hab.2])
  · intro l1 x l2 heq hnotin hx
    have hx2 : x ∈ dedup_go (current_final_items st) [] := hx
    rw [heq] at hx2
    exact dedup_go_first_seen l1 x l2 [] hx2 hnotin
  · intro x hx hk
    exact dedup_go_complete (current_final_items st) [] x hx hk (by simp)

/-- Witness for C5 at the concrete state: the Oak resolution survives
de-duplication as the representative of its key. -/
theorem resolver_dedup_unique_first_seen_witness :
    ∃ z ∈ (step3 stB).finalItems,
      ukey z = ukey (mkBaseFinalItem "kB" itemB "Oak" rowOak) :=
  (resolver_dedup_unique_first_seen stB).2.2.2.2
    (mkBaseFinalItem "kB" itemB "Oak" rowOak) (by decide) (by decide)

end Muuto
